import Mathlib

/-
Verification of the string-expression layer of the pathway repository.

The visible source file (src/python/pathway/internals/expressions/string.py)
is a catalogue of call sites of a core mechanism: typed multi-signature
overload resolution producing an immutable expression tree
(expr.MethodCallExpression).  The core itself lives outside the visible
sources, so its data model and algorithm are modelled here from the
specification (sections 3, 4.2 and 4.3); the per-operation signature lists
(replace, parse_int, parse_float, parse_bool) are translated directly from
the visible source file.
-/

namespace Pathway

/-- Modelled from the spec: the primitive tags of a Type Descriptor
(string, integer, float, boolean) plus the `Unbound` tag that appears in
the inferred type of the absence marker. -/
inductive BaseTag
  | string
  | int
  | float
  | bool
  | unbound
deriving DecidableEq, Repr

/-- Modelled from the spec: a Type Descriptor is a primitive tag or
`Optional<T>` wrapping another descriptor. -/
inductive TypeDescriptor
  | base (tag : BaseTag)
  | optional (t : TypeDescriptor)
deriving DecidableEq, Repr

/-- Modelled from the spec: the normalizing `Optional` constructor;
`Optional<Optional<T>>` collapses to `Optional<T>` (no nested optionality). -/
def mkOptional : TypeDescriptor → TypeDescriptor
  | .optional t => .optional t
  | t => .optional t

/-- Base (non-absent) runtime values: the native value kinds handled by the
literal-coercion contract.  The floating-point payload is modelled by a
rational number, which is enough for the typing and dispatch behaviour
verified here. -/
inductive BaseValue
  | vstring (s : String)
  | vint (n : Int)
  | vfloat (q : Rat)
  | vbool (b : Bool)
deriving DecidableEq, Repr

/-- Raw native values accepted at call sites: a base value or the explicit
absence marker (Python `None`). -/
inductive RawValue
  | val (v : BaseValue)
  | unset
deriving DecidableEq, Repr

/-- Modelled from the spec: the runtime value layer, an explicit sum
`Present(T) | Absent`, distinct from the static `Optional` descriptor. -/
inductive RtValue
  | present (v : BaseValue)
  | absent
deriving DecidableEq, Repr

/-- Errors raised by native implementations at evaluation time. -/
inductive EvalError
  | valueError (msg : String)
deriving DecidableEq, Repr

/-- The value shape a native implementation sees: a base value, or the
native absence sentinel for a legitimately-absent optional argument. -/
abbrev NativeValue := Option BaseValue

/-- A native implementation: a callable from argument values to a value,
which may also raise. -/
abbrev Impl := List NativeValue → Except EvalError NativeValue

/-- Modelled from the spec: a Signature pairs ordered argument types with a
result type and a native implementation. -/
structure Signature where
  argument_types : List TypeDescriptor
  result_type : TypeDescriptor
  implementation : Impl

/-- Modelled from the spec: an immutable Expression Node — a literal leaf,
a reference leaf with its declared type, or a resolved method-call node
carrying the operation name, the resolved result type, the bound
implementation, the nullable-taint mark used by the adaptor, and its
ordered children. -/
inductive Node
  | literal (v : RawValue) (ty : TypeDescriptor)
  | reference (key : String) (ty : TypeDescriptor)
  | call (op_name : String) (ty : TypeDescriptor) (implementation : Impl)
      (nullable_tainted : Bool) (children : List Node)

/-- Modelled from the spec: every node exposes its TypeDescriptor in
constant time, with no data evaluation. -/
def type_of : Node → TypeDescriptor
  | .literal _ ty => ty
  | .reference _ ty => ty
  | .call _ ty _ _ _ => ty

/-- Modelled from the spec: the ordered children of a node (empty for
leaves). -/
def children_of : Node → List Node
  | .call _ _ _ _ cs => cs
  | _ => []

/-- Modelled from the spec: best-effort native-value-to-TypeDescriptor
inference — integers to integer, text to string, boolean to boolean,
floating-point to float, absence-marker to `Optional<Unbound>`. -/
def infer_type : RawValue → TypeDescriptor
  | .val (.vint _) => .base .int
  | .val (.vstring _) => .base .string
  | .val (.vbool _) => .base .bool
  | .val (.vfloat _) => .base .float
  | .unset => .optional (.base .unbound)

/-- Modelled from the spec: build a Literal leaf from a raw value with its
inferred type. -/
def literal (v : RawValue) : Node :=
  .literal v (infer_type v)

/-- Modelled from the spec: build a Reference leaf from a column key and
its declared type. -/
def reference (key : String) (declared : TypeDescriptor) : Node :=
  .reference key declared

/-- An argument at a call site: an already-built node, or a raw literal
value to be auto-wrapped. -/
inductive Arg
  | node (n : Node)
  | raw (v : RawValue)

/-- Modelled from the spec: auto-wrap raw literal arguments into Literal
nodes; already-built nodes pass through. -/
def wrapArg : Arg → Node
  | .node n => n
  | .raw v => literal v

/-- Modelled from the spec: the static type of the absence marker,
`Optional<Unbound>`. -/
def absence_type : TypeDescriptor := .optional (.base .unbound)

/-- Modelled from the spec: positional match of an actual argument type
against a candidate's expected type.  `none` means no match; `some t`
means a match where `t` records whether this position nullable-taints the
call (a bare expected type fed an `Optional` actual). -/
def match_position (expected actual : TypeDescriptor) : Option Bool :=
  if actual = expected then some false
  else
    match expected with
    | .optional x =>
      if actual = x ∨ actual = absence_type then some false else none
    | .base _ =>
      if actual = .optional expected then some true else none

/-- Modelled from the spec: match a candidate's expected types against the
actual argument types positionally; requires equal arity, and the call is
nullable-tainted when any position taints it. -/
def match_args : List TypeDescriptor → List TypeDescriptor → Option Bool
  | [], [] => some false
  | e :: es, a :: rest =>
    match match_position e a, match_args es rest with
    | some t, some ts => some (t || ts)
    | _, _ => none
  | _, _ => none

/-- Modelled from the spec: the typed resolution error, carrying the
operation name and the computed argument types. -/
inductive ResolveError
  | noMatchingOverload (op_name : String) (arg_types : List TypeDescriptor)
deriving DecidableEq, Repr

/-- Modelled from the spec: scan the signature list in declaration order
and return the first candidate whose pattern matches, together with the
nullable-taint mark; no backtracking, no most-specific tie-break. -/
def resolve_signature : List Signature → List TypeDescriptor → Option (Signature × Bool)
  | [], _ => none
  | s :: ss, tys =>
    match match_args s.argument_types tys with
    | some tainted => some (s, tainted)
    | none => resolve_signature ss tys

/-- The static types of a call site's arguments after auto-wrapping. -/
def arg_types_of (args : List Arg) : List TypeDescriptor :=
  (args.map wrapArg).map type_of

/-- Modelled from the spec: the Overload Resolver.  Computes argument
types, scans the candidates in order, widens the winning result type to
`Optional` when the call is nullable-tainted, and produces a Call node
binding the winning implementation — or fails with `noMatchingOverload`
carrying the operation name and the computed argument types. -/
def resolve (op_name : String) (signatures : List Signature) (args : List Arg) :
    Except ResolveError Node :=
  let children := args.map wrapArg
  let tys := children.map type_of
  match resolve_signature signatures tys with
  | some (s, tainted) =>
    .ok (.call op_name (if tainted then mkOptional s.result_type else s.result_type)
      s.implementation tainted children)
  | none => .error (.noMatchingOverload op_name tys)

/-- Unwrap a runtime value to the shape the native implementation sees:
a present optional argument is unwrapped to its base value, an absent one
becomes the native absence sentinel. -/
def to_native : RtValue → NativeValue
  | .present b => some b
  | .absent => none

/-- Wrap a native outcome back into the runtime value layer: a non-absent
outcome becomes present, the absence sentinel becomes absent. -/
def wrap_result : NativeValue → RtValue
  | some b => .present b
  | none => .absent

/-- Modelled from the spec: the optional-aware native-call adaptor.  If
the call is nullable-tainted and any runtime argument is absent, it
short-circuits to an absent result without invoking the implementation;
otherwise it unwraps the arguments, invokes the implementation exactly
once, and wraps the outcome.  The second component counts how many times
the native implementation was invoked. -/
def eval_adaptor (nullable_tainted : Bool) (implementation : Impl)
    (args : List RtValue) : Except EvalError RtValue × Nat :=
  if nullable_tainted && args.any (· == RtValue.absent) then (.ok .absent, 0)
  else ((implementation (args.map to_native)).map wrap_result, 1)

/-- Inject a raw literal value into the runtime value layer. -/
def raw_to_rt : RawValue → RtValue
  | .val b => .present b
  | .unset => .absent

mutual

/-- Modelled from the spec: the execution engine's recursive evaluation of
a finished expression tree under an environment giving each reference key
its runtime value — children first, then the node's adaptor. -/
def eval_node (env : String → RtValue) : Node → Except EvalError RtValue
  | .literal v _ => .ok (raw_to_rt v)
  | .reference k _ => .ok (env k)
  | .call _ _ implementation tainted cs =>
    match eval_children env cs with
    | .error e => .error e
    | .ok vs => (eval_adaptor tainted implementation vs).1

/-- Evaluate an ordered list of child nodes, propagating the first
evaluation error. -/
def eval_children (env : String → RtValue) : List Node → Except EvalError (List RtValue)
  | [] => .ok []
  | n :: ns =>
    match eval_node env n with
    | .error e => .error e
    | .ok v =>
      match eval_children env ns with
      | .error e => .error e
      | .ok vs => .ok (v :: vs)

end

/-! ### Concrete operations translated from the visible source file -/

/-- Python's `str.replace` on character lists: replaces occurrences of
`old` left to right, at most `cnt` of them when `cnt` is non-negative and
all of them when `cnt` is negative; an empty `old` inserts `new` between
characters and at both ends, as the Python builtin does.  The fuel
argument bounds the scan by the string length. -/
def pyReplaceAux (old new : List Char) : List Char → Int → Nat → List Char
  | s, _, 0 => s
  | s, cnt, fuel + 1 =>
    if cnt = 0 then s
    else if old.isPrefixOf s then
      match old, s with
      | [], [] => new
      | [], c :: cs => new ++ c :: pyReplaceAux old new cs (cnt - 1) fuel
      | _ :: _, _ => new ++ pyReplaceAux old new (s.drop old.length) (cnt - 1) fuel
    else
      match s with
      | [] => []
      | c :: cs => c :: pyReplaceAux old new cs cnt fuel

/-- Python's `s1.replace(s2, s3, cnt)`, as called by the `str.replace`
implementation lambda in the source. -/
def pyReplace (s old new : String) (cnt : Int) : String :=
  String.mk (pyReplaceAux old.data new.data s.data cnt (s.data.length + 1))

/-- The native implementation bound by `StringNamespace.replace`:
whole-string replace-all with the `-1` count sentinel interpreted by the
implementation (Python `str.replace`), not by the core. -/
def impl_replace : Impl
  | [some (.vstring s1), some (.vstring s2), some (.vstring s3), some (.vint c)] =>
    .ok (some (.vstring (pyReplace s1 s2 s3 c)))
  | _ => .error (.valueError "str.replace: invalid arguments")

/-- The signature list supplied by `StringNamespace.replace` in the
source: a single candidate `((str, str, str, int), str, impl_replace)`. -/
def replace_signatures : List Signature :=
  [{ argument_types := [.base .string, .base .string, .base .string, .base .int],
     result_type := .base .string,
     implementation := impl_replace }]

/-- `StringNamespace.replace` from the source: resolves `"str.replace"`
over its single signature with the receiver expression followed by
`old_value`, `new_value` and `count`. -/
def str_replace (e old_value new_value cnt : Arg) : Except ResolveError Node :=
  resolve "str.replace" replace_signatures [e, old_value, new_value, cnt]

/-- Lowercase one character in the ASCII range (the range exercised by the
recognized token lists of `parse_bool`). -/
def char_lower (c : Char) : Char :=
  if 65 ≤ c.toNat ∧ c.toNat ≤ 90 then Char.ofNat (c.toNat + 32) else c

/-- Python's `str.lower` on the ASCII strings used here. -/
def string_lower (s : String) : String :=
  String.mk (s.data.map char_lower)

/-- The numeric value of a decimal digit character, if it is one. -/
def digit_val (c : Char) : Option Nat :=
  if 48 ≤ c.toNat ∧ c.toNat ≤ 57 then some (c.toNat - 48) else none

/-- Parse a non-empty all-digit character list as a natural number. -/
def parse_nat_chars : List Char → Option Nat
  | [] => none
  | cs => cs.foldl (fun acc c => acc.bind fun n => (digit_val c).map fun d => 10 * n + d)
      (some 0)

/-- Python's `int(s)` restricted to optionally signed decimal literals. -/
def parse_int_string (s : String) : Option Int :=
  match s.data with
  | '-' :: rest => (parse_nat_chars rest).map fun n => -(n : Int)
  | '+' :: rest => (parse_nat_chars rest).map fun n => (n : Int)
  | cs => (parse_nat_chars cs).map fun n => (n : Int)

/-- Modelled from the spec: `api.Expression.parse_int` — parse the string
as an integer; on failure, return absence when the `optional` flag is set
and raise otherwise. -/
def api_parse_int (optional : Bool) : Impl
  | [some (.vstring s)] =>
    match parse_int_string s with
    | some n => .ok (some (.vint n))
    | none =>
      if optional then .ok none
      else .error (.valueError "parse_int: cannot parse")
  | _ => .error (.valueError "parse_int: invalid arguments")

/-- Best-effort decimal parsing of a float literal string into the
rational model of floating-point payloads. -/
def parse_rat_string (s : String) : Option Rat :=
  let core : List Char → Option Rat := fun cs =>
    match cs.splitOn '.' with
    | [ip] => (parse_nat_chars ip).map fun n => (n : Rat)
    | [ip, fp] =>
      match parse_nat_chars ip, parse_nat_chars fp with
      | some a, some b => some ((a : Rat) + (b : Rat) / ((10 : Rat) ^ fp.length))
      | _, _ => none
    | _ => none
  match s.data with
  | '-' :: rest => (core rest).map Neg.neg
  | cs => core cs

/-- Modelled from the spec: `api.Expression.parse_float` — parse the
string as a float; on failure, return absence when the `optional` flag is
set and raise otherwise. -/
def api_parse_float (optional : Bool) : Impl
  | [some (.vstring s)] =>
    match parse_rat_string s with
    | some q => .ok (some (.vfloat q))
    | none =>
      if optional then .ok none
      else .error (.valueError "parse_float: cannot parse")
  | _ => .error (.valueError "parse_float: invalid arguments")

/-- Modelled from the spec: `api.Expression.parse_bool` — lowercase the
string and look it up in the recognized true and false token lists; on a
miss, return absence when the `optional` flag is set and raise
otherwise. -/
def api_parse_bool (true_values false_values : List String) (optional : Bool) : Impl
  | [some (.vstring s)] =>
    let sl := string_lower s
    if true_values.contains sl then .ok (some (.vbool true))
    else if false_values.contains sl then .ok (some (.vbool false))
    else if optional then .ok none
    else .error (.valueError "parse_bool: cannot parse")
  | _ => .error (.valueError "parse_bool: invalid arguments")

/-- The signature list supplied by `StringNamespace.parse_int` in the
source: one candidate taking a string, whose result type is
`Optional[int]` when the construction-time flag is set and `int`
otherwise, with the same flag baked into the implementation. -/
def parse_int_signatures (optional : Bool) : List Signature :=
  [{ argument_types := [.base .string],
     result_type := if optional then .optional (.base .int) else .base .int,
     implementation := api_parse_int optional }]

/-- `StringNamespace.parse_int` from the source. -/
def parse_int (e : Node) (optional : Bool) : Except ResolveError Node :=
  resolve "str.parse_int" (parse_int_signatures optional) [.node e]

/-- The signature list supplied by `StringNamespace.parse_float` in the
source. -/
def parse_float_signatures (optional : Bool) : List Signature :=
  [{ argument_types := [.base .string],
     result_type := if optional then .optional (.base .float) else .base .float,
     implementation := api_parse_float optional }]

/-- `StringNamespace.parse_float` from the source. -/
def parse_float (e : Node) (optional : Bool) : Except ResolveError Node :=
  resolve "str.parse_float" (parse_float_signatures optional) [.node e]

/-- The default recognized true tokens of `StringNamespace.parse_bool`. -/
def default_true_values : List String := ["on", "true", "yes", "1"]

/-- The default recognized false tokens of `StringNamespace.parse_bool`. -/
def default_false_values : List String := ["off", "false", "no", "0"]

/-- The signature list supplied by `StringNamespace.parse_bool` in the
source: the recognized token lists are lowercased at call-site
construction time and baked, with the `optional` flag, into the single
candidate's implementation. -/
def parse_bool_signatures (true_values false_values : List String)
    (optional : Bool) : List Signature :=
  let lowercase_true_values := true_values.map string_lower
  let lowercase_false_values := false_values.map string_lower
  [{ argument_types := [.base .string],
     result_type := if optional then .optional (.base .bool) else .base .bool,
     implementation :=
       api_parse_bool lowercase_true_values lowercase_false_values optional }]

/-- `StringNamespace.parse_bool` from the source. -/
def parse_bool (e : Node) (true_values false_values : List String)
    (optional : Bool) : Except ResolveError Node :=
  resolve "str.parse_bool" (parse_bool_signatures true_values false_values optional)
    [.node e]

/-! ### Helper lemmas on matching and resolution -/

theorem match_args_length {es as : List TypeDescriptor} {t : Bool}
    (h : match_args es as = some t) : es.length = as.length := by
  induction es generalizing as t with
  | nil => cases as with
    | nil => rfl
    | cons a rest => simp [match_args] at h
  | cons e es ih =>
    cases as with
    | nil => simp [match_args] at h
    | cons a rest =>
      simp only [match_args] at h
      cases hp : match_position e a with
      | none => rw [hp] at h; simp at h
      | some t0 =>
        cases hr : match_args es rest with
        | none => rw [hp, hr] at h; simp at h
        | some ts => simpa using ih hr

theorem match_args_get {es as : List TypeDescriptor} {t : Bool}
    (h : match_args es as = some t) :
    ∀ i (h1 : i < es.length) (h2 : i < as.length),
      ∃ ti, match_position (es.get ⟨i, h1⟩) (as.get ⟨i, h2⟩) = some ti := by
  induction es generalizing as t with
  | nil => intro i h1; exact absurd h1 (by simp)
  | cons e es ih =>
    cases as with
    | nil => simp [match_args] at h
    | cons a rest =>
      simp only [match_args] at h
      cases hp : match_position e a with
      | none => rw [hp] at h; simp at h
      | some t0 =>
        cases hr : match_args es rest with
        | none => rw [hp, hr] at h; simp at h
        | some ts =>
          intro i h1 h2
          cases i with
          | zero => exact ⟨t0, hp⟩
          | succ j =>
            exact ih hr j (Nat.lt_of_succ_lt_succ h1) (Nat.lt_of_succ_lt_succ h2)

theorem resolve_signature_first {sigs : List Signature}
    {tys : List TypeDescriptor} {i : Nat} (hi : i < sigs.length) {t : Bool}
    (hmatch : match_args (sigs.get ⟨i, hi⟩).argument_types tys = some t)
    (hearlier : ∀ j (hj : j < sigs.length), j < i →
      match_args (sigs.get ⟨j, hj⟩).argument_types tys = none) :
    resolve_signature sigs tys = some (sigs.get ⟨i, hi⟩, t) := by
  induction sigs generalizing i with
  | nil => exact absurd hi (by simp)
  | cons s ss ih =>
    cases i with
    | zero =>
      simp only [List.get] at hmatch
      simp [resolve_signature, hmatch]
    | succ k =>
      have h0 : match_args s.argument_types tys = none :=
        hearlier 0 (by simp) (Nat.succ_pos k)
      simp only [List.get] at hmatch ⊢
      simp only [resolve_signature, h0]
      exact ih (Nat.lt_of_succ_lt_succ hi) hmatch
        (fun j hj hlt => hearlier (j + 1) (Nat.succ_lt_succ hj) (Nat.succ_lt_succ hlt))

theorem resolve_signature_some {sigs : List Signature}
    {tys : List TypeDescriptor} {s : Signature} {t : Bool}
    (h : resolve_signature sigs tys = some (s, t)) :
    s ∈ sigs ∧ match_args s.argument_types tys = some t := by
  induction sigs with
  | nil => simp [resolve_signature] at h
  | cons s0 ss ih =>
    simp only [resolve_signature] at h
    cases hm : match_args s0.argument_types tys with
    | some t0 =>
      rw [hm] at h
      simp only [Option.some.injEq, Prod.mk.injEq] at h
      obtain ⟨hs, ht⟩ := h
      subst hs; subst ht
      exact ⟨List.mem_cons_self s0 ss, hm⟩
    | none =>
      rw [hm] at h
      obtain ⟨hmem, hma⟩ := ih h
      exact ⟨List.mem_cons_of_mem s0 hmem, hma⟩

theorem resolve_signature_none_iff {sigs : List Signature}
    {tys : List TypeDescriptor} :
    resolve_signature sigs tys = none ↔
      ∀ s ∈ sigs, match_args s.argument_types tys = none := by
  induction sigs with
  | nil => simp [resolve_signature]
  | cons s0 ss ih =>
    simp only [resolve_signature]
    cases hm : match_args s0.argument_types tys with
    | some t0 =>
      constructor
      · intro h; simp at h
      · intro h; rw [h s0 (List.mem_cons_self s0 ss)] at hm; cases hm
    | none => simp [hm, ih]

/-- A constant stub implementation, used to instantiate resolution
scenarios at concrete inputs. -/
def impl_const (n : Int) : Impl := fun _ => .ok (some (.vint n))

/-- Unfolding equation of the resolver. -/
theorem resolve_eq (op : String) (sigs : List Signature) (args : List Arg) :
    resolve op sigs args =
      match resolve_signature sigs (arg_types_of args) with
      | some (s, tainted) => .ok (.call op
          (if tainted then mkOptional s.result_type else s.result_type)
          s.implementation tainted (args.map wrapArg))
      | none => .error (.noMatchingOverload op (arg_types_of args)) := rfl

/-- The evaluation-independent payload of a resolved node: operation name,
resolved type, bound implementation and taint mark — everything except
the children. -/
def call_parts : Node → String × TypeDescriptor × Impl × Bool
  | .call op ty implementation tainted _ => (op, ty, implementation, tainted)
  | n => ("", type_of n, impl_const 0, false)

/-- A concrete first candidate used in resolution scenarios. -/
def sigA : Signature :=
  { argument_types := [.base .string], result_type := .base .int,
    implementation := impl_const 1 }

/-- A concrete second candidate, matching the same argument pattern as
`sigA` but binding a different implementation and result type. -/
def sigB : Signature :=
  { argument_types := [.base .string], result_type := .base .bool,
    implementation := impl_const 2 }

/-! ### Claim theorems -/

/-- C6: the Optional descriptor constructor normalizes
`Optional<Optional<T>>` to `Optional<T>`: it is idempotent on every
descriptor, widening an already-optional descriptor is the identity, and
a nullable-tainted call winning a signature whose declared result is
already `Optional<int>` gets the singly-wrapped `Optional<int>`. -/
theorem optional_normalization :
    (∀ t, mkOptional (mkOptional t) = mkOptional t) ∧
    (∀ t, mkOptional (.optional t) = .optional t) ∧
    (Except.map type_of
      (resolve "op" [{ argument_types := [.base .string],
                       result_type := .optional (.base .int),
                       implementation := impl_const 0 }]
        [.node (reference "x" (.optional (.base .string)))]) =
      .ok (.optional (.base .int))) := by
  refine ⟨fun t => ?_, fun t => rfl, rfl⟩
  cases t <;> rfl

/-- C7: leaf round-trip and literal auto-inference — a reference leaf's
type is its declared type, and auto-wrapped literals follow the inference
table: integer to integer, text to string, boolean to boolean,
floating-point to float, absence marker to `Optional<Unbound>`. -/
theorem leaf_round_trip :
    (∀ (k : String) (T : TypeDescriptor), type_of (reference k T) = T) ∧
    (∀ n : Int, type_of (literal (.val (.vint n))) = .base .int) ∧
    (∀ s : String, type_of (literal (.val (.vstring s))) = .base .string) ∧
    (∀ b : Bool, type_of (literal (.val (.vbool b))) = .base .bool) ∧
    (∀ q : Rat, type_of (literal (.val (.vfloat q))) = .base .float) ∧
    type_of (literal .unset) = .optional (.base .unbound) :=
  ⟨fun _ _ => rfl, fun _ => rfl, fun _ => rfl, fun _ => rfl, fun _ => rfl, rfl⟩

/-- C10: the parse family fixes its declared result type and its failure
behaviour from the construction-time `optional` flag, not from
resolution: each of `parse_int`, `parse_float` and `parse_bool` registers
exactly one signature, whose result type is the `Optional` base type
exactly when the flag is set and the bare base type otherwise, with the
same flag baked into the bound implementation; the implementation returns
absence on unparsable input when the flag is set and raises otherwise. -/
theorem parse_family_flag_fixed :
    (∀ o : Bool, (parse_int_signatures o).length = 1 ∧
      (parse_int_signatures o).map Signature.result_type =
        [if o then .optional (.base .int) else .base .int] ∧
      (parse_int_signatures o).map Signature.implementation = [api_parse_int o]) ∧
    (∀ o : Bool, (parse_float_signatures o).length = 1 ∧
      (parse_float_signatures o).map Signature.result_type =
        [if o then .optional (.base .float) else .base .float] ∧
      (parse_float_signatures o).map Signature.implementation = [api_parse_float o]) ∧
    (∀ (tv fv : List String) (o : Bool),
      (parse_bool_signatures tv fv o).length = 1 ∧
      (parse_bool_signatures tv fv o).map Signature.result_type =
        [if o then .optional (.base .bool) else .base .bool] ∧
      (parse_bool_signatures tv fv o).map Signature.implementation =
        [api_parse_bool (tv.map string_lower) (fv.map string_lower) o]) ∧
    api_parse_int true [some (.vstring "abc")] = .ok none ∧
    api_parse_int false [some (.vstring "abc")] =
      .error (.valueError "parse_int: cannot parse") ∧
    api_parse_float true [some (.vstring "abc")] = .ok none ∧
    api_parse_float false [some (.vstring "abc")] =
      .error (.valueError "parse_float: cannot parse") ∧
    api_parse_bool ["true"] ["false"] true [some (.vstring "abc")] = .ok none ∧
    api_parse_bool ["true"] ["false"] false [some (.vstring "abc")] =
      .error (.valueError "parse_bool: cannot parse") := by
  refine ⟨fun o => ⟨rfl, rfl, rfl⟩, fun o => ⟨rfl, rfl, rfl⟩,
    fun tv fv o => ⟨rfl, rfl, rfl⟩, ?_, ?_, ?_, ?_, ?_, ?_⟩ <;> rfl

/-- C1: overload resolution is first-match-wins in signature declaration
order — whenever the signature at index `i` matches the computed argument
types and every earlier signature fails to match, `resolve` binds the
implementation and result type of that signature, regardless of any later
matching candidates. -/
theorem first_match_wins (op : String) (sigs : List Signature) (args : List Arg)
    (i : Nat) (hi : i < sigs.length) (t : Bool)
    (hmatch : match_args (sigs.get ⟨i, hi⟩).argument_types (arg_types_of args) = some t)
    (hearlier : ∀ j (hj : j < sigs.length), j < i →
      match_args (sigs.get ⟨j, hj⟩).argument_types (arg_types_of args) = none) :
    resolve op sigs args = .ok (.call op
      (if t then mkOptional (sigs.get ⟨i, hi⟩).result_type
       else (sigs.get ⟨i, hi⟩).result_type)
      (sigs.get ⟨i, hi⟩).implementation t (args.map wrapArg)) := by
  rw [resolve_eq, resolve_signature_first hi hmatch hearlier]

/-- C1 witness: with two candidates that both match a string argument, the
earlier candidate's implementation and result type are bound. -/
theorem first_match_wins_witness :
    resolve "op" [sigA, sigB] [.raw (.val (.vstring "x"))] =
      .ok (.call "op" (.base .int) (impl_const 1) false
        [literal (.val (.vstring "x"))]) := by
  exact first_match_wins "op" [sigA, sigB] [.raw (.val (.vstring "x"))] 0 (by simp)
    false rfl (fun j hj hlt => absurd hlt (Nat.not_lt_zero j))

/-- C2: optional widening — when resolution succeeds, the produced Call
node's type is the winning signature's result type widened to `Optional`
exactly when the call is nullable-tainted; a position taints the call
precisely when a bare expected type meets an `Optional` actual type. -/
theorem optional_widening (op : String) (sigs : List Signature) (args : List Arg)
    (s : Signature) (t : Bool)
    (h : resolve_signature sigs (arg_types_of args) = some (s, t)) :
    (∃ n, resolve op sigs args = .ok n ∧
      type_of n = (if t then mkOptional s.result_type else s.result_type)) ∧
    (∀ tag, match_position (.base tag) (.optional (.base tag)) = some true) ∧
    (∀ e a, match_position e a = some true → a = .optional e ∧ ∃ tag, e = .base tag) := by
  refine ⟨⟨.call op (if t then mkOptional s.result_type else s.result_type)
      s.implementation t (args.map wrapArg), by rw [resolve_eq, h], rfl⟩,
    fun tag => by simp [match_position], fun e a hm => ?_⟩
  cases e with
  | base tag =>
    simp only [match_position] at hm
    split_ifs at hm <;>
      first
      | exact ⟨by assumption, tag, rfl⟩
      | simp at hm
  | optional x =>
    simp only [match_position] at hm
    split_ifs at hm <;> simp at hm

/-- C2 witness: a signature expecting a bare string fed an
`Optional<string>` reference resolves to a node of `Optional<int>` type,
widening its declared bare `int` result. -/
theorem optional_widening_witness :
    ∃ n, resolve "op" [sigA] [.node (reference "x" (.optional (.base .string)))] =
        .ok n ∧
      type_of n = .optional (.base .int) := by
  exact (optional_widening "op" [sigA]
    [.node (reference "x" (.optional (.base .string)))] sigA true rfl).1

/-- C3: no-match failure reporting — `resolve` fails exactly when no
candidate matches the computed argument types, the error is always
`noMatchingOverload` carrying the operation name and those types, and an
arity mismatch makes a candidate fail to match (it is skipped). -/
theorem no_matching_overload (op : String) (sigs : List Signature) (args : List Arg) :
    ((∀ s ∈ sigs, match_args s.argument_types (arg_types_of args) = none) ↔
      resolve op sigs args = .error (.noMatchingOverload op (arg_types_of args))) ∧
    (∀ e, resolve op sigs args = .error e →
      e = .noMatchingOverload op (arg_types_of args)) ∧
    (∀ (s : Signature) (tys : List TypeDescriptor),
      s.argument_types.length ≠ tys.length → match_args s.argument_types tys = none) := by
  refine ⟨?_, ?_, ?_⟩
  · rw [resolve_eq]
    constructor
    · intro h
      rw [resolve_signature_none_iff.mpr h]
    · intro h
      cases hr : resolve_signature sigs (arg_types_of args) with
      | none => exact resolve_signature_none_iff.mp hr
      | some st => obtain ⟨s, t⟩ := st; rw [hr] at h; simp at h
  · intro e h
    rw [resolve_eq] at h
    cases hr : resolve_signature sigs (arg_types_of args) with
    | some st => obtain ⟨s, t⟩ := st; rw [hr] at h; simp at h
    | none =>
      rw [hr] at h
      simpa using h.symm
  · intro s tys hne
    cases hm : match_args s.argument_types tys with
    | none => rfl
    | some t => exact absurd (match_args_length hm) hne

/-- C3 witness: the spec's concrete scenario — an integer literal supplied
where a string is expected fails with `noMatchingOverload` carrying the
operation name and the computed argument types, with no coercion. -/
theorem no_matching_overload_witness :
    resolve "op" [sigA] [.raw (.val (.vint 42))] =
      .error (.noMatchingOverload "op" [.base .int]) := by
  exact (no_matching_overload "op" [sigA] [.raw (.val (.vint 42))]).1.mp
    (by intro s hs; rw [List.mem_singleton] at hs; subst hs; rfl)

/-- C9: resolution determinism — two resolve calls with the same operation
name, the same signature list and argument lists of identical static
types choose the same signature and produce the same outcome (same
resolved type, same bound implementation, same taint mark, or the same
error). -/
theorem resolution_deterministic (op : String) (sigs : List Signature)
    (args1 args2 : List Arg) (h : arg_types_of args1 = arg_types_of args2) :
    resolve_signature sigs (arg_types_of args1) =
      resolve_signature sigs (arg_types_of args2) ∧
    Except.map call_parts (resolve op sigs args1) =
      Except.map call_parts (resolve op sigs args2) := by
  refine ⟨by rw [h], ?_⟩
  rw [resolve_eq, resolve_eq, h]
  cases resolve_signature sigs (arg_types_of args2) with
  | none => rfl
  | some st => obtain ⟨s, t⟩ := st; rfl

/-- C9 witness: a raw string literal and a string-typed reference have the
same static type, so the two resolve calls agree on everything except the
child nodes themselves. -/
theorem resolution_deterministic_witness :
    Except.map call_parts (resolve "op" [sigA] [.raw (.val (.vstring "a"))]) =
      Except.map call_parts
        (resolve "op" [sigA] [.node (reference "k" (.base .string))]) := by
  exact (resolution_deterministic "op" [sigA] [.raw (.val (.vstring "a"))]
    [.node (reference "k" (.base .string))] rfl).2

/-- C5: Call-node structural invariant — a successful resolve produces a
node whose children are exactly the wrapped arguments in original order,
whose child count equals the winning signature's arity, whose every child
type positionally matches the expected type under the optional-aware
matching relation, and whose TypeDescriptor is the stored resolved type,
read off without evaluating any data. -/
theorem call_node_structure (op : String) (sigs : List Signature) (args : List Arg)
    (s : Signature) (t : Bool)
    (h : resolve_signature sigs (arg_types_of args) = some (s, t)) :
    resolve op sigs args = .ok (.call op
      (if t then mkOptional s.result_type else s.result_type)
      s.implementation t (args.map wrapArg)) ∧
    children_of (.call op (if t then mkOptional s.result_type else s.result_type)
      s.implementation t (args.map wrapArg)) = args.map wrapArg ∧
    (args.map wrapArg).length = s.argument_types.length ∧
    (∀ i (h1 : i < s.argument_types.length) (h2 : i < (args.map wrapArg).length),
      ∃ ti, match_position (s.argument_types.get ⟨i, h1⟩)
        (type_of ((args.map wrapArg).get ⟨i, h2⟩)) = some ti) ∧
    type_of (.call op (if t then mkOptional s.result_type else s.result_type)
      s.implementation t (args.map wrapArg)) =
      (if t then mkOptional s.result_type else s.result_type) := by
  have hm := (resolve_signature_some h).2
  have hlen := match_args_length hm
  refine ⟨by rw [resolve_eq, h], rfl, ?_, ?_, rfl⟩
  · simpa [arg_types_of] using hlen.symm
  · intro i h1 h2
    have h2' : i < (arg_types_of args).length := by
      simpa [arg_types_of] using h2
    obtain ⟨ti, hti⟩ := match_args_get hm i h1 h2'
    refine ⟨ti, ?_⟩
    rw [← hti]
    congr 1
    simp [arg_types_of, List.get_eq_getElem, List.getElem_map]

/-- C5 witness: a concrete successful resolve whose node carries its one
child in order and whose arity equals the signature's. -/
theorem call_node_structure_witness :
    resolve "op" [sigA] [.raw (.val (.vstring "x"))] =
      .ok (.call "op" (.base .int) (impl_const 1) false
        [literal (.val (.vstring "x"))]) ∧
    ([Arg.raw (.val (.vstring "x"))].map wrapArg).length =
      sigA.argument_types.length := by
  have h := call_node_structure "op" [sigA] [.raw (.val (.vstring "x"))] sigA false rfl
  exact ⟨h.1, h.2.2.1⟩

/-- C4: absence short-circuit of the adaptor — on a nullable-tainted call
with any absent runtime argument the adaptor yields absent and invokes
the native implementation zero times; with no absent argument it unwraps
the arguments, invokes the implementation exactly once and wraps a
non-absent outcome back into present; and a tainted Call node's
evaluation goes through exactly this adaptor. -/
theorem absence_short_circuit (implementation : Impl) (args : List RtValue) :
    (args.any (· == RtValue.absent) = true →
      eval_adaptor true implementation args = (.ok .absent, 0)) ∧
    (∀ tainted : Bool, args.any (· == RtValue.absent) = false →
      eval_adaptor tainted implementation args =
        ((implementation (args.map to_native)).map wrap_result, 1)) ∧
    (∀ b, wrap_result (some b) = .present b) ∧
    (∀ env op ty cs, eval_node env (.call op ty implementation true cs) =
      match eval_children env cs with
      | .error e => .error e
      | .ok vs => (eval_adaptor true implementation vs).1) := by
  refine ⟨fun h => ?_, fun tainted h => ?_, fun b => rfl, fun env op ty cs => ?_⟩
  · simp [eval_adaptor, h]
  · simp [eval_adaptor, h]
  · rw [eval_node.eq_def]

/-- C4 witness: with a counting view of the adaptor, one absent argument
on a tainted call yields absent with zero invocations, while all-present
arguments invoke the stub implementation exactly once and produce its
wrapped outcome. -/
theorem absence_short_circuit_witness :
    eval_adaptor true (impl_const 7) [.present (.vint 1), .absent] =
      (.ok .absent, 0) ∧
    eval_adaptor true (impl_const 7) [.present (.vint 1)] =
      (.ok (.present (.vint 7)), 1) := by
  refine ⟨(absence_short_circuit (impl_const 7) [.present (.vint 1), .absent]).1 rfl, ?_⟩
  rw [(absence_short_circuit (impl_const 7) [.present (.vint 1)]).2.1 true rfl]
  rfl

/-- The arguments of the spec's end-to-end replace scenario: a string
column reference and three raw literals. -/
def replace_scenario_args : List Arg :=
  [.node (reference "name" (.base .string)), .raw (.val (.vstring "d")),
   .raw (.val (.vstring "Z")), .raw (.val (.vint (-1)))]

/-- C8 counterexample: with the signature exactly as the claim states it —
argument types `(string, string, int, int)` — the third argument
`literal("Z")` has type string where `int` is expected, so resolution
fails with `noMatchingOverload` instead of producing the claimed Call
node of type string. -/
theorem replace_as_stated_no_match :
    resolve "replace"
      [{ argument_types := [.base .string, .base .string, .base .int, .base .int],
         result_type := .base .string, implementation := impl_replace }]
      replace_scenario_args =
      .error (.noMatchingOverload "replace"
        [.base .string, .base .string, .base .string, .base .int]) := rfl

/-- The Call node produced by the (amended) end-to-end replace scenario. -/
def replace_call_node : Node :=
  .call "replace" (.base .string) impl_replace false
    [reference "name" (.base .string), literal (.val (.vstring "d")),
     literal (.val (.vstring "Z")), literal (.val (.vint (-1)))]

/-- The runtime environment of the scenario: the `name` column holds the
string `david`. -/
def env_david : String → RtValue :=
  fun k => if k = "name" then .present (.vstring "david") else .absent

/-- C8 (amended): with the source's replace signature
`((string, string, string, int) -> string, impl_replace)`, the scenario
resolves to a Call node of type string with `impl_replace` bound and its
4 children in original order, and evaluating it with runtime value
`david` for the reference yields `ZaviZ` — whole-string replace-all with
the `-1` sentinel interpreted by the implementation. -/
theorem replace_end_to_end :
    resolve "replace" replace_signatures replace_scenario_args =
      .ok replace_call_node ∧
    type_of replace_call_node = .base .string ∧
    children_of replace_call_node =
      [reference "name" (.base .string), literal (.val (.vstring "d")),
       literal (.val (.vstring "Z")), literal (.val (.vint (-1)))] ∧
    (children_of replace_call_node).length = 4 ∧
    eval_node env_david replace_call_node = .ok (.present (.vstring "ZaviZ")) := by
  refine ⟨rfl, rfl, rfl, rfl, ?_⟩
  simp only [replace_call_node, reference, literal, eval_node, eval_children]
  rfl

end Pathway
